import Mathlib

/-!
Verification development for the sc-crud-rethink realtime CRUD layer.

The JavaScript sources are shallowly embedded:
  * `src/channel-resource-parser.js` → `parseChannelResourceQuery`
  * `src/index.js` channel naming     → `resourceChannelName`, `fieldChannelName`,
    `viewChannelName` (with `json-stable-stringify` embedded as `stableStringify`)
  * `src/cache.js`                    → `cachePass`, `cacheProviderCallback`,
    `cacheUpdate`, … over an explicit cache state
  * `src/index.js` CRUD entry points  → `createDispatch`, `updateDispatch`,
    `updateSavedHandlerPubs`, `shapeReadResult`, `readPageSize`

JavaScript dynamic values are modelled by the inductive `JS`; property access,
truthiness, and loose equality are embedded exactly where the source relies on
them.  Strings are modelled as `List Char` (`Str`) so that channel-name
concatenation and splitting can be reasoned about by list induction.
-/

abbrev Str := List Char

/-- Convert a Lean string literal to the `List Char` representation. -/
def strL (s : String) : Str := s.toList

/-- Replace or append a key in an association list, preserving the insertion
order of existing keys (JavaScript object/map assignment semantics). -/
def updAssoc {α : Type} : List (Str × α) → Str → α → List (Str × α)
  | [], k, v => [(k, v)]
  | (k1, v1) :: rest, k, v =>
      if k1 = k then (k, v) :: rest else (k1, v1) :: updAssoc rest k v

/-- Remove a key from an association list (JavaScript `delete`). -/
def delAssoc {α : Type} : List (Str × α) → Str → List (Str × α)
  | [], _ => []
  | (k1, v1) :: rest, k =>
      if k1 = k then rest else (k1, v1) :: delAssoc rest k

/-- Model of a JavaScript runtime value (the fragment the embedded code uses).
`undef` is JavaScript `undefined`; `obj` keeps properties in insertion order,
as JavaScript objects with string keys do. -/
inductive JS where
  | undef : JS
  | null : JS
  | bool : Bool → JS
  | num : Int → JS
  | str : Str → JS
  | obj : List (Str × JS) → JS
  | arr : List JS → JS

namespace JS

/-- JavaScript truthiness for the modelled values (`NaN` is not modelled;
the embedded code never produces it on a truthiness-tested path). -/
def truthy : JS → Bool
  | undef => false
  | null => false
  | bool b => b
  | num n => n != 0
  | str s => s != []
  | obj _ => true
  | arr _ => true

/-- Property read `o[k]`.  On the embedded paths the receiver is always an
object; other receivers yield `undefined` here (the sources never read a
property off `null`/`undefined` on a modelled path). -/
def getProp : JS → Str → JS
  | obj ps, k => match ps.lookup k with
    | some v => v
    | none => undef
  | _, _ => undef

/-- Property write `o[k] = v` (no-op on non-objects, which the sources never
perform on a modelled path). -/
def setProp : JS → Str → JS → JS
  | obj ps, k, v => obj (updAssoc ps k v)
  | o, _, _ => o

/-- `o.hasOwnProperty(k)` for object receivers. -/
def hasProp : JS → Str → Bool
  | obj ps, k => (ps.lookup k).isSome
  | _, _ => false

/-- The JavaScript loose test `v == null`, which holds exactly for `null` and
`undefined`. -/
def isLooseNull : JS → Bool
  | undef => true
  | null => true
  | _ => false

/-- Loose equality `==` restricted to the value shapes the cache and the
update handler compare (numbers, `null`, `undefined`; `null == undefined`
holds, a number is never loosely equal to `null`/`undefined`). -/
def looseEq : JS → JS → Bool
  | undef, undef => true
  | undef, null => true
  | null, undef => true
  | null, null => true
  | num a, num b => a == b
  | str a, str b => a == b
  | bool a, bool b => a == b
  | _, _ => false

end JS

/-! Splitting helpers mirroring `String.prototype.split` on a single-character
separator, and the pieces of the view-channel regular expression. -/

/-- `s.split(c)` for a one-character separator: always non-empty, and the
separators themselves are dropped. -/
def splitOnChar (c : Char) : List Char → List (List Char)
  | [] => [[]]
  | x :: xs =>
    if x = c then [] :: splitOnChar c xs
    else match splitOnChar c xs with
      | [] => [[x]]
      | p :: ps => (x :: p) :: ps

/-- Split a list at the first occurrence of `c`: `some (a, b)` with
`s = a ++ c :: b` and `c ∉ a`, or `none` when `c` does not occur. -/
def breakAtFirst (c : Char) : List Char → Option (List Char × List Char)
  | [] => none
  | x :: xs =>
    if x = c then some ([], xs)
    else (breakAtFirst c xs).map (fun p => (x :: p.1, p.2))

/-- Split a list at the last occurrence of `c`. -/
def lastSplitOn (c : Char) (s : List Char) : Option (List Char × List Char) :=
  (breakAtFirst c s.reverse).map (fun p => (p.2.reverse, p.1.reverse))

/-- Line terminators, which `.` in a JavaScript regular expression does not
match. -/
def isLineTerm (c : Char) : Bool :=
  c == '\n' || c == '\r' || c == ' ' || c == ' '

/-- Semantics of matching `resourceString` against the view-channel pattern
`^([^\(]*)\((.*)\):([^:]*)$` from `src/channel-resource-parser.js`.
A match decomposes the string as `view ++ "(" ++ params ++ "):" ++ type`
where the final `:` is the last colon, the character before it is `)`,
`view` runs up to the first `(`, and `params` (matched by `.*`) contains no
line terminator. -/
def viewMatch (s : Str) : Option (Str × Str × Str) :=
  match lastSplitOn ':' s with
  | none => none
  | some (before, t) =>
    match before.reverse with
    | [] => none
    | c :: restRev =>
      if c = ')' then
        match breakAtFirst '(' restRev.reverse with
        | none => none
        | some (v, ps) => if ps.any isLineTerm then none else some (v, ps, t)
      else none

/-- Outcome of `parseChannelResourceQuery`.  `noMatch` is the source returning
`null`; `crash` is the uncaught `TypeError` raised when the resource string
contains `:` but fails the view regular expression (so `viewMatches` is `null`
and `viewMatches[1]` throws).  The view parameters are kept as the raw matched
string (`viewMatches[2]`); the source additionally applies `JSON.parse` to it
inside a `try`/`catch` that cannot throw out of the function. -/
inductive ParseOutcome where
  | modelRes : Str → Option Str → Option Str → ParseOutcome
  | viewRes : Str → Str → Str → ParseOutcome
  | noMatch : ParseOutcome
  | crash : ParseOutcome
deriving DecidableEq, Repr

/-- Embedding of `parseChannelResourceQuery` (src/channel-resource-parser.js,
lines 3–36), including the `TypeError` path. -/
def parseChannelResourceQuery (channelName : Str) : ParseOutcome :=
  match splitOnChar '>' channelName with
  | [] => ParseOutcome.noMatch
  | mp0 :: rest =>
    if mp0 = strL "crud" then
      match rest with
      | [] => ParseOutcome.noMatch
      | resourceString :: _ =>
        if resourceString = [] then ParseOutcome.noMatch
        else if ':' ∈ resourceString then
          match viewMatch resourceString with
          | none => ParseOutcome.crash
          | some (v, ps, t) => ParseOutcome.viewRes v ps t
        else
          match splitOnChar '/' resourceString with
          | [] => ParseOutcome.noMatch
          | ty :: restParts =>
            let idOpt : Option Str := match restParts with
              | [] => none
              | i :: _ => if i = [] then none else some i
            let fieldOpt : Option Str := match restParts with
              | _ :: f :: _ => if f = [] then none else some f
              | _ => none
            ParseOutcome.modelRes ty idOpt fieldOpt
    else ParseOutcome.noMatch

/-! Embedding of `json-stable-stringify` as used by `_getViewChannelName`:
keys are serialized in sorted order; properties whose value serializes to
`undefined` are omitted (as `JSON.stringify` does); `undefined` inside an
array becomes `null`.  Numbers are modelled as integers, which covers every
value the embedded code serializes. -/

/-- JSON string escaping for the characters the embedding can produce. -/
def escapeJSONChar (c : Char) : Str :=
  if c = '"' then ['\\', '"']
  else if c = '\\' then ['\\', '\\']
  else if c = '\n' then ['\\', 'n']
  else if c = '\r' then ['\\', 'r']
  else if c = '\t' then ['\\', 't']
  else [c]

def escapeStr (s : Str) : Str := (s.map escapeJSONChar).flatten

/-- Lexicographic comparison of strings by character code, matching the
default JavaScript `Array.prototype.sort` on keys. -/
def strLexLe : Str → Str → Bool
  | [], _ => true
  | _ :: _, [] => false
  | a :: as, b :: bs => if a = b then strLexLe as bs else decide (a < b)

def insertByKey (p : Str × Str) : List (Str × Str) → List (Str × Str)
  | [] => [p]
  | q :: qs => if strLexLe p.1 q.1 then p :: q :: qs else q :: insertByKey p qs

def sortByKey : List (Str × Str) → List (Str × Str)
  | [] => []
  | p :: ps => insertByKey p (sortByKey ps)

/-- Render already-serialized properties, dropping the ones whose value
serialized to `undefined` (represented by the empty string, which no real
serialization produces). -/
def renderProps : List (Str × Str) → List Str
  | [] => []
  | (k, v) :: ps =>
      if v = [] then renderProps ps
      else ('"' :: escapeStr k ++ '"' :: ':' :: v) :: renderProps ps

mutual

/-- Embedding of `jsonStableStringify` from the `json-stable-stringify`
dependency.  The empty string stands for the `undefined` result of
serializing `undefined`. -/
def stableStringify : JS → Str
  | JS.undef => []
  | JS.null => strL "null"
  | JS.bool b => if b then strL "true" else strL "false"
  | JS.num n => strL (toString n)
  | JS.str s => '"' :: escapeStr s ++ ['"']
  | JS.arr es => '[' :: List.intercalate [','] (stringifyElems es) ++ [']']
  | JS.obj ps =>
      '\x7b' :: List.intercalate [','] (renderProps (sortByKey (stringifyProps ps))) ++ ['\x7d']

def stringifyElems : List JS → List Str
  | [] => []
  | e :: es =>
      (match stableStringify e with
        | [] => strL "null"
        | s => s) :: stringifyElems es

def stringifyProps : List (Str × JS) → List (Str × Str)
  | [] => []
  | (k, v) :: ps => (k, stableStringify v) :: stringifyProps ps

end

/-! Channel naming from `src/index.js` (`this.channelPrefix = 'crud>'`). -/

def chanPfx : Str := strL "crud>"

/-- `_getResourceChannelName` (src/index.js line 72). -/
def resourceChannelName (type id : Str) : Str :=
  chanPfx ++ type ++ '/' :: id

/-- Field channels are built inline in `update`/`delete`
(`channelPrefix + type + '/' + id + '/' + field`). -/
def fieldChannelName (type id field : Str) : Str :=
  chanPfx ++ type ++ '/' :: id ++ '/' :: field

/-- `_getViewChannelName` (src/index.js lines 153–161): view parameters that
are loosely `null` serialize to the empty string. -/
def viewChannelName (viewName : Str) (viewParams : JS) (type : Str) : Str :=
  let viewParamsString :=
    if viewParams.isLooseNull then [] else stableStringify viewParams
  chanPfx ++ viewName ++ '(' :: viewParamsString ++ ')' :: ':' :: type

/-! Embedding of `src/cache.js`.

The cache holds two maps: `this._cache` (resource path → entry object) and
`this._watchers` (resource path → callback list).  `Cache.prototype.set`
always stores a wrapper object `\x7bresource: data, timeout: …\x7d`; the value
handed back by `Cache.prototype.get` is that wrapper's `resource` property.
Timers are represented by an inert stub: none of the verified traces lets a
TTL expire, and the timer value itself is only ever truth-tested.  The
`hit`/`miss`/`set`/`clear`/`expire`/`update` events carry no state and are not
modelled.  JavaScript mutates the entry objects in place through aliases
(`this._cache[path] → wrapper → inner entry`); the embedding threads the same
updates through the maps explicitly. -/

/-- The query fields `Cache.prototype._getResourcePath` consults. -/
structure CQuery where
  type : Str
  id : Str

/-- `_getResourcePath` (src/cache.js lines 14–19): `null` unless both `type`
and `id` are truthy. -/
def getResourcePath (q : CQuery) : Option Str :=
  if q.type = [] ∨ q.id = [] then none
  else some (q.type ++ '/' :: q.id)

/-- Stand-in for the opaque timer handle stored on a cache entry. -/
def timerStub : JS := JS.num 0

/-- State of a `Cache` instance. -/
structure CacheState where
  cacheDisabled : Bool
  cache : List (Str × JS)
  watchers : List (Str × List Nat)

/-- A callback invocation `watcher(err, val)`; callbacks are identified by
number. -/
structure Delivery where
  cb : Nat
  err : JS
  val : JS

/-- `Cache.prototype.set` (src/cache.js lines 28–49): wraps the data in a
fresh entry object and (re)installs the expiry timer. -/
def cacheSet (s : CacheState) (data : JS) (resourcePath : Str) : CacheState :=
  let entry := JS.obj [(strL "resource", data), (strL "timeout", timerStub)]
  { s with cache := updAssoc s.cache resourcePath entry }

/-- `Cache.prototype.get` (src/cache.js lines 64–70). -/
def cacheGet (s : CacheState) (resourcePath : Str) : JS :=
  (match s.cache.lookup resourcePath with
    | some e => e
    | none => JS.obj []).getProp (strL "resource")

/-- `Cache.prototype._pushWatcher` (src/cache.js lines 72–77). -/
def pushWatcher (s : CacheState) (resourcePath : Str) (cb : Nat) : CacheState :=
  let l2 := ((s.watchers.lookup resourcePath).getD []) ++ [cb]
  { s with watchers := updAssoc s.watchers resourcePath l2 }

/-- `Cache.prototype._processCacheWatchers` (src/cache.js lines 79–92):
notify every watcher in enqueue order — with the error alone when it is
truthy, otherwise with `(null, data)` — then delete the watcher list. -/
def processCacheWatchers (s : CacheState) (resourcePath : Str) (error data : JS) :
    CacheState × List Delivery :=
  let watcherList := (s.watchers.lookup resourcePath).getD []
  let dels := if error.truthy
    then watcherList.map (fun cb => Delivery.mk cb error JS.undef)
    else watcherList.map (fun cb => Delivery.mk cb JS.null data)
  ({ s with watchers := delAssoc s.watchers resourcePath }, dels)

/-- How a `pass` call used its `provider` argument. -/
inductive PassOutcome where
  | bypass : PassOutcome
  | startedFetch : Str → PassOutcome
  | joined : PassOutcome
deriving DecidableEq, Repr

/-- The synchronous part of `Cache.prototype.pass` (src/cache.js lines
94–148).  `bypass` means `provider(callback)` was called directly (cache
disabled or unidentified resource); `startedFetch path` means a pending entry
was installed and `provider` was started with the completion closure modelled
by `cacheProviderCallback`; `joined` means `provider` was not invoked. -/
def cachePass (s : CacheState) (q : CQuery) (cb : Nat) :
    CacheState × PassOutcome × List Delivery :=
  if s.cacheDisabled then (s, PassOutcome.bypass, [])
  else match getResourcePath q with
  | none => (s, PassOutcome.bypass, [])
  | some resourcePath =>
    let cacheEntry := cacheGet s resourcePath
    let s1 := pushWatcher s resourcePath cb
    if cacheEntry.truthy then
      if (cacheEntry.getProp (strL "pending")).truthy then
        (s1, PassOutcome.joined, [])
      else
        let (s2, dels) := processCacheWatchers s1 resourcePath JS.null
          (cacheEntry.getProp (strL "resource"))
        (s2, PassOutcome.joined, dels)
    else
      let marker := JS.obj [(strL "pending", JS.bool true), (strL "patch", JS.obj [])]
      let s2 := cacheSet s1 marker resourcePath
      (s2, PassOutcome.startedFetch resourcePath, [])

/-- `_.forOwn(patch, (value, field) => data[field] = value)` — a no-op when
`patch` is not an object (in particular when it is `undefined`). -/
def applyPatchProps (patch data : JS) : JS :=
  match patch with
  | JS.obj ps => ps.foldl (fun d kv => d.setProp kv.1 kv.2) data
  | _ => data

/-- The completion closure `pass` hands to `provider` (src/cache.js lines
128–146).  On success it reads `self._cache[resourcePath]` — the *wrapper*
object, whose only keys are `resource` and `timeout` — and merges
`freshCacheEntry.patch` (always `undefined` there) into the fetched document,
stores a fresh resolved entry, and notifies the watchers; on a truthy error
it only notifies the watchers. -/
def cacheProviderCallback (s : CacheState) (resourcePath : Str) (err data : JS) :
    CacheState × List Delivery :=
  if err.truthy then
    processCacheWatchers s resourcePath err data
  else
    let freshCacheEntry := match s.cache.lookup resourcePath with
      | some e => e
      | none => JS.undef
    let data2 := if freshCacheEntry.truthy then
        applyPatchProps (freshCacheEntry.getProp (strL "patch")) data
      else data
    let newCacheEntry := JS.obj [(strL "resource", data2)]
    let s1 := cacheSet s newCacheEntry resourcePath
    processCacheWatchers s1 resourcePath JS.null data2

/-- `Cache.prototype.update` (src/cache.js lines 150–189).  Returns `none`
for the one input family on which the source would throw (`'crud'` with no
`>` segment, where `parts[1]` is `undefined` and `.split` raises); otherwise
returns the updated state.  A field-level update on a pending entry lands in
the entry's `patch`; on a resolved entry it is written into the document. -/
def cacheUpdate (s : CacheState) (resourceChannelString : Str) (data : JS) :
    Option CacheState :=
  if ¬ data.truthy then some s
  else if ¬ JS.looseEq (data.getProp (strL "type")) (JS.str (strL "update")) then some s
  else if ¬ data.hasProp (strL "value") then some s
  else match splitOnChar '>' resourceChannelString with
  | [] => some s
  | crudString :: rest =>
    if crudString ≠ strL "crud" then some s
    else match rest with
    | [] => none
    | resourceChannel :: _ =>
      match splitOnChar '/' resourceChannel with
      | [] => some s
      | ty :: restParts =>
        let idStr : Str := (restParts.headD [])
        let fieldStr : Str := match restParts with
          | _ :: f :: _ => f
          | _ => []
        if ty = [] ∨ idStr = [] ∨ fieldStr = [] then some s
        else
          let resourcePath := ty ++ '/' :: idStr
          let v := data.getProp (strL "value")
          match s.cache.lookup resourcePath with
          | none => some s
          | some wrapper =>
            let cacheEntry := wrapper.getProp (strL "resource")
            if cacheEntry.truthy then
              let inner2 :=
                if (cacheEntry.getProp (strL "pending")).truthy then
                  cacheEntry.setProp (strL "patch")
                    ((cacheEntry.getProp (strL "patch")).setProp fieldStr v)
                else
                  cacheEntry.setProp (strL "resource")
                    ((cacheEntry.getProp (strL "resource")).setProp fieldStr v)
              let wrapper2 := wrapper.setProp (strL "resource") inner2
              some { s with cache := updAssoc s.cache resourcePath wrapper2 }
            else some s

/-- A sequence of `pass` calls for the same query, counting how many times
the `provider` was invoked (`bypass` and `startedFetch` both invoke it).
This is exactly how `read`-by-id drains its buffered callbacks: the
orchestrator's `_processResourceReadBuffer` (src/index.js lines 213–227)
funnels every buffered reader through `cache.pass` one after the other. -/
def runPasses (s : CacheState) (q : CQuery) (cbs : List Nat) :
    CacheState × Nat × List Delivery :=
  match cbs with
  | [] => (s, 0, [])
  | cb :: rest =>
    let r1 := cachePass s q cb
    let started := match r1.2.1 with
      | PassOutcome.joined => 0
      | _ => 1
    let r2 := runPasses r1.1 q rest
    (r2.1, started + r2.2.1, r1.2.2 ++ r2.2.2)

/-! Embedding of the CRUD entry points of `src/index.js` that the claims
touch.  The store (`thinky`) and the broker are external collaborators: store
interactions appear as inputs (the fetched document, the view-offset maps
returned by `_getDocumentViewOffsets`) and broker publications as outputs
(`(channel, message)` pairs).  `savedHandler(err)` with a truthy error calls
the client callback with the error and performs no publish, so a validation
rejection produces no side effect beyond that callback. -/

/-- Error names used by the validation paths of src/index.js. -/
inductive ErrName where
  | CRUDInvalidModelType : ErrName
  | CRUDInvalidParams : ErrName
  | CRUDInvalidOperation : ErrName
deriving DecidableEq, Repr

namespace JS

/-- The JavaScript test `typeof v == 'object'`, true for `null`, plain
objects and arrays. -/
def typeofObject : JS → Bool
  | null => true
  | obj _ => true
  | arr _ => true
  | _ => false

/-- Strict `=== undefined`. -/
def isUndef : JS → Bool
  | undef => true
  | _ => false

/-- Own enumerable keys, in insertion order (`_.forOwn` iteration). -/
def objKeys : JS → List Str
  | obj ps => ps.map (fun kv => kv.1)
  | _ => []

/-- String coercion as used for channel-name concatenation. -/
def coerceStr : JS → Str
  | str s => s
  | num n => strL (toString n)
  | null => strL "null"
  | undef => strL "undefined"
  | bool b => if b then strL "true" else strL "false"
  | _ => []

end JS

/-- Synchronous outcome of `SCCRUDRethink.prototype.create` validation
(src/index.js lines 163–211).  `callbackErrs` lists the errors the client
callback receives, in order; `crashed` records an uncaught `TypeError`
(`new ModelClass(...)` with `ModelClass == null`); `saveAttempted` records
whether `instance.save` — the store insert — was reached.  The source reads
`if (ModelClass == null) \x7b … savedHandler(error); \x7d if (typeof query.value
== 'object') \x7b … \x7d else \x7b … \x7d` — note the missing `else` on the second
`if`. -/
structure CreateResult where
  callbackErrs : List ErrName
  crashed : Bool
  saveAttempted : Bool
deriving DecidableEq, Repr

def createDispatch (typeInSchema : Bool) (value : JS) : CreateResult :=
  let errs0 : List ErrName :=
    if typeInSchema then [] else [ErrName.CRUDInvalidModelType]
  if value.typeofObject then
    if typeInSchema then ⟨errs0, false, true⟩
    else ⟨errs0, true, false⟩
  else
    ⟨errs0 ++ [ErrName.CRUDInvalidParams], false, false⟩

/-- The update query envelope (the fields `update` reads). -/
structure UQuery where
  type : Str
  id : JS
  field : JS
  value : JS

/-- Validation outcome of `SCCRUDRethink.prototype.update` (src/index.js
lines 448–539).  `immediateErr` is the error handed synchronously to
`savedHandler` (hence to the callback, with no publish and no store access);
`tasksPlanned` says the load–filter–save task chain was scheduled;
`fieldsAssigned` lists the fields written onto the loaded instance before
`save` (for the `value`-object form, every own key of `query.value` —
including `id`). -/
structure UpdateDispatch where
  immediateErr : Option ErrName
  tasksPlanned : Bool
  fieldsAssigned : List Str
deriving DecidableEq, Repr

def updateDispatch (typeInSchema : Bool) (q : UQuery) : UpdateDispatch :=
  if ¬ typeInSchema then ⟨some ErrName.CRUDInvalidModelType, false, []⟩
  else if q.id.isLooseNull then ⟨some ErrName.CRUDInvalidParams, false, []⟩
  else if q.field.truthy then
    if JS.looseEq q.field (JS.str (strL "id")) then
      ⟨some ErrName.CRUDInvalidOperation, false, []⟩
    else
      ⟨none, true, [q.field.coerceStr]⟩
  else if q.value.typeofObject then ⟨none, true, q.value.objKeys⟩
  else ⟨some ErrName.CRUDInvalidOperation, false, []⟩

/-- `_isWithinRealtimeBounds` (src/index.js lines 149–151):
`maximumRealtimeOffset == null || offset <= maximumRealtimeOffset`, with the
JavaScript coercions `null <= m ↔ 0 <= m` and `undefined <= m` false. -/
def isWithinRealtimeBounds (maxOffset : Option Int) (offset : JS) : Bool :=
  match maxOffset with
  | none => true
  | some m => match offset with
    | JS.num n => n ≤ m
    | JS.null => 0 ≤ m
    | _ => false

/-- The publish sequence of `update`'s `savedHandler` success path
(src/index.js lines 391–446): the resource channel gets the bare payload
`1`; each updated field gets `\x7btype:'update', value\x7d` (`undefined` value
normalized to `null`); then, for every view in the freshly computed
`newViewOffsets`, *iff* the old and new offsets differ loosely, a
`\x7btype:'update', freshness:'old', id, offset\x7d` message on the view channel
named with the old `viewParams` and a `freshness:'new'` message on the view
channel named with the new `viewParams`, each gated by
`_isWithinRealtimeBounds`. -/
def updateSavedHandlerPubs (q : UQuery) (oldViewOffsets newViewOffsets : List (Str × JS))
    (maxOffset : Option Int) : List (Str × JS) :=
  let idStr := q.id.coerceStr
  let resourcePub : List (Str × JS) := [(resourceChannelName q.type idStr, JS.num 1)]
  let fieldPubs : List (Str × JS) :=
    if q.field.truthy then
      let cleanValue := if q.value.isUndef then JS.null else q.value
      [(fieldChannelName q.type idStr q.field.coerceStr,
        JS.obj [(strL "type", JS.str (strL "update")), (strL "value", cleanValue)])]
    else
      match q.value with
      | JS.obj ps => ps.map (fun kv =>
          let v := if kv.2.isUndef then JS.null else kv.2
          (fieldChannelName q.type idStr kv.1,
           JS.obj [(strL "type", JS.str (strL "update")), (strL "value", v)]))
      | _ => []
  let viewPubs : List (Str × JS) :=
    (newViewOffsets.map (fun kv =>
      let viewName := kv.1
      let newOffsetData := kv.2
      let oldOffsetData := (oldViewOffsets.lookup viewName).getD (JS.obj [])
      let oldOffset := oldOffsetData.getProp (strL "offset")
      let newOffset := newOffsetData.getProp (strL "offset")
      if JS.looseEq oldOffset newOffset then []
      else
        (if isWithinRealtimeBounds maxOffset oldOffset then
          [(viewChannelName viewName (oldOffsetData.getProp (strL "viewParams")) q.type,
            JS.obj [(strL "type", JS.str (strL "update")),
                    (strL "freshness", JS.str (strL "old")),
                    (strL "id", q.id), (strL "offset", oldOffset)])]
         else []) ++
        (if isWithinRealtimeBounds maxOffset newOffset then
          [(viewChannelName viewName (newOffsetData.getProp (strL "viewParams")) q.type,
            JS.obj [(strL "type", JS.str (strL "update")),
                    (strL "freshness", JS.str (strL "new")),
                    (strL "id", q.id), (strL "offset", newOffset)])]
         else []))).flatten
  resourcePub ++ fieldPubs ++ viewPubs

/-- The read query envelope (the fields `read`'s result shaping consults). -/
structure RQuery where
  id : JS
  field : JS
  getCount : JS
  pageSize : JS

/-- Constructor normalization of `options.defaultPageSize`
(src/index.js lines 22–24): falsy (absent or `0`) becomes `10`. -/
def normDefaultPageSize (defaultPageSize : Option Int) : Int :=
  match defaultPageSize with
  | some n => if n != 0 then n else 10
  | none => 10

/-- `var pageSize = query.pageSize || this.options.defaultPageSize`
(src/index.js line 236). -/
def readPageSize (q : RQuery) (defaultPageSize : Option Int) : Int :=
  match q.pageSize with
  | JS.num n => if n != 0 then n else normDefaultPageSize defaultPageSize
  | _ => normDefaultPageSize defaultPageSize

/-- `data[i].id || null` from the collection loop. -/
def rowIdOrNull (r : JS) : JS :=
  let v := r.getProp (strL "id")
  if v.truthy then v else JS.null

/-- Result shaping done by `read`'s `loadedHandler` after the post filter
admits (src/index.js lines 264–299).  For an `id` query the document (or its
field, with a `null`/`undefined` document replaced by `\x7b\x7d`) is returned; for
a collection query the first `Math.min(data.length, pageSize)` row ids are
listed, `count` is attached iff `query.getCount` is truthy and `isLastPage`
iff fewer than `pageSize + 1` rows came back; a final `undefined` is
normalized to `null`.  A non-array collection result (never produced by the
store) yields `Math.min(undefined, pageSize) = NaN`: no rows and no
`isLastPage`. -/
def shapeReadResult (q : RQuery) (data : JS) (count : JS) (pageSize : Int) : JS :=
  let result :=
    if q.id.truthy then
      if q.field.truthy then
        let data2 := if data.isLooseNull then JS.obj [] else data
        data2.getProp q.field.coerceStr
      else data
    else
      match data with
      | JS.arr rows =>
        let resultCount : Nat := min rows.length pageSize.toNat
        let documentList := (rows.take resultCount).map rowIdOrNull
        let base := JS.obj [(strL "data", JS.arr documentList)]
        let base2 := if q.getCount.truthy then base.setProp (strL "count") count else base
        if (rows.length : Int) < pageSize + 1 then
          base2.setProp (strL "isLastPage") (JS.bool true)
        else base2
      | _ =>
        let base := JS.obj [(strL "data", JS.arr [])]
        if q.getCount.truthy then base.setProp (strL "count") count else base
  if result.isUndef then JS.null else result

/-- The pending entry object `pass` installs on a miss
(`\x7bpending: true, patch: \x7b\x7d\x7d`). -/
def pendingMarker : JS :=
  JS.obj [(strL "pending", JS.bool true), (strL "patch", JS.obj [])]

/-- The wrapper `Cache.prototype.set` stores around the pending entry. -/
def pendingWrapper : JS :=
  JS.obj [(strL "resource", pendingMarker), (strL "timeout", timerStub)]

/-! Generic lemmas about the association-list and splitting helpers. -/

theorem lookup_updAssoc_self {α : Type} (m : List (Str × α)) (k : Str) (v : α) :
    (updAssoc m k v).lookup k = some v := by
  induction m with
  | nil => simp [updAssoc, List.lookup]
  | cons p rest ih =>
    obtain ⟨k1, v1⟩ := p
    by_cases h : k1 = k
    · simp [updAssoc, h, List.lookup]
    · have hb : (k == k1) = false := by
        simp only [beq_eq_false_iff_ne, ne_eq]
        exact fun hh => h hh.symm
      simp [updAssoc, if_neg h, List.lookup, hb, ih]

theorem lookup_updAssoc_ne {α : Type} (m : List (Str × α)) (k k2 : Str) (v : α)
    (h : k2 ≠ k) : (updAssoc m k v).lookup k2 = m.lookup k2 := by
  have hb : (k2 == k) = false := by simp only [beq_eq_false_iff_ne, ne_eq]; exact h
  induction m with
  | nil => simp [updAssoc, List.lookup, hb]
  | cons p rest ih =>
    obtain ⟨k1, v1⟩ := p
    by_cases h1 : k1 = k
    · subst h1
      simp [updAssoc, List.lookup, hb]
    · simp [updAssoc, if_neg h1, List.lookup, ih]

theorem lookup_delAssoc_ne {α : Type} (m : List (Str × α)) (k k2 : Str)
    (h : k2 ≠ k) : (delAssoc m k).lookup k2 = m.lookup k2 := by
  have hb : (k2 == k) = false := by simp only [beq_eq_false_iff_ne, ne_eq]; exact h
  induction m with
  | nil => simp [delAssoc]
  | cons p rest ih =>
    obtain ⟨k1, v1⟩ := p
    by_cases h1 : k1 = k
    · subst h1
      simp [delAssoc, List.lookup, hb, ih]
    · simp [delAssoc, if_neg h1, List.lookup, ih]

theorem splitOnChar_ne_nil (c : Char) (xs : List Char) : splitOnChar c xs ≠ [] := by
  induction xs with
  | nil => simp [splitOnChar]
  | cons x xs ih =>
    by_cases h : x = c
    · simp [splitOnChar, h]
    · simp only [splitOnChar, if_neg h]
      cases hs : splitOnChar c xs with
      | nil => simp
      | cons p ps => simp

theorem splitOnChar_of_not_mem (c : Char) (xs : List Char) (h : c ∉ xs) :
    splitOnChar c xs = [xs] := by
  induction xs with
  | nil => rfl
  | cons x xs ih =>
    simp only [List.mem_cons, not_or] at h
    have hx : ¬ x = c := fun hh => h.1 hh.symm
    simp [splitOnChar, hx, ih h.2]

theorem splitOnChar_append (c : Char) (xs ys : List Char) (h : c ∉ xs) :
    splitOnChar c (xs ++ c :: ys) = xs :: splitOnChar c ys := by
  induction xs with
  | nil => simp [splitOnChar]
  | cons x xs ih =>
    simp only [List.mem_cons, not_or] at h
    have hx : ¬ x = c := fun hh => h.1 hh.symm
    rw [List.cons_append]
    simp only [splitOnChar, if_neg hx, ih h.2]

theorem breakAtFirst_of_not_mem (c : Char) (s : List Char) (h : c ∉ s) :
    breakAtFirst c s = none := by
  induction s with
  | nil => rfl
  | cons x xs ih =>
    simp only [List.mem_cons, not_or] at h
    have hx : ¬ x = c := fun hh => h.1 hh.symm
    simp [breakAtFirst, hx, ih h.2]

theorem breakAtFirst_append (c : Char) (a b : List Char) (h : c ∉ a) :
    breakAtFirst c (a ++ c :: b) = some (a, b) := by
  induction a with
  | nil => simp [breakAtFirst]
  | cons x xs ih =>
    simp only [List.mem_cons, not_or] at h
    have hx : ¬ x = c := fun hh => h.1 hh.symm
    simp [breakAtFirst, hx, ih h.2]

theorem breakAtFirst_eq_some (c : Char) (s a b : List Char) :
    breakAtFirst c s = some (a, b) ↔ s = a ++ c :: b ∧ c ∉ a := by
  constructor
  · intro h
    induction s generalizing a b with
    | nil => simp [breakAtFirst] at h
    | cons x xs ih =>
      by_cases hx : x = c
      · subst hx
        simp only [breakAtFirst, if_pos rfl, Option.some.injEq, Prod.mk.injEq] at h
        obtain ⟨rfl, rfl⟩ := h
        simp
      · simp only [breakAtFirst, if_neg hx, Option.map_eq_some'] at h
        obtain ⟨⟨p1, p2⟩, hp, he⟩ := h
        simp only [Prod.mk.injEq] at he
        obtain ⟨h1, h2⟩ := he
        subst h1; subst h2
        obtain ⟨hs, hm⟩ := ih p1 p2 hp
        subst hs
        exact ⟨rfl, by simp [hm, Ne.symm hx]⟩
  · intro hs
    obtain ⟨hs, hm⟩ := hs
    subst hs
    exact breakAtFirst_append c a b hm

theorem lastSplitOn_eq_some (c : Char) (s a b : List Char) :
    lastSplitOn c s = some (a, b) ↔ s = a ++ c :: b ∧ c ∉ b := by
  unfold lastSplitOn
  rw [Option.map_eq_some']
  constructor
  · rintro ⟨⟨p1, p2⟩, hp, he⟩
    simp only [Prod.mk.injEq] at he
    obtain ⟨h1, h2⟩ := he
    rw [breakAtFirst_eq_some] at hp
    obtain ⟨hs, hm⟩ := hp
    subst h1; subst h2
    constructor
    · have hrev := congrArg List.reverse hs
      simpa using hrev
    · simpa using hm
  · rintro ⟨hs, hm⟩
    refine ⟨(b.reverse, a.reverse), ?_, by simp⟩
    subst hs
    rw [show (a ++ c :: b).reverse = b.reverse ++ c :: a.reverse by simp]
    exact breakAtFirst_append c _ _ (by simpa using hm)

theorem viewMatch_eq_some (s v ps t : Str) :
    viewMatch s = some (v, ps, t) ↔
      s = v ++ '(' :: ps ++ ')' :: ':' :: t ∧ '(' ∉ v ∧ ':' ∉ t ∧
        ps.any isLineTerm = false := by
  constructor
  · intro h
    unfold viewMatch at h
    cases hls : lastSplitOn ':' s with
    | none => rw [hls] at h; exact absurd h (by simp)
    | some p =>
      obtain ⟨before, t0⟩ := p
      rw [hls] at h
      dsimp only at h
      cases hrev : before.reverse with
      | nil => rw [hrev] at h; exact absurd h (by simp)
      | cons c0 restRev =>
        rw [hrev] at h
        dsimp only at h
        by_cases hc0 : c0 = ')'
        · rw [if_pos hc0] at h
          cases hbk : breakAtFirst '(' restRev.reverse with
          | none => rw [hbk] at h; exact absurd h (by simp)
          | some q =>
            obtain ⟨v0, ps0⟩ := q
            rw [hbk] at h
            dsimp only at h
            by_cases hlt : ps0.any isLineTerm
            · rw [if_pos hlt] at h; exact absurd h (by simp)
            · rw [if_neg hlt] at h
              simp only [Option.some.injEq, Prod.mk.injEq] at h
              obtain ⟨hv, hps, ht⟩ := h
              obtain ⟨hs0, hmt⟩ := (lastSplitOn_eq_some ':' s before t0).mp hls
              have hbefore : before = restRev.reverse ++ [c0] := by
                have hc := congrArg List.reverse hrev
                simpa using hc
              obtain ⟨hbody, hmv⟩ := (breakAtFirst_eq_some '(' restRev.reverse v0 ps0).mp hbk
              subst hc0
              rw [hbefore, hbody] at hs0
              refine ⟨?_, ?_, ?_, ?_⟩
              · rw [← hv, ← hps, ← ht, hs0]; simp
              · rw [← hv]; exact hmv
              · rw [← ht]; exact hmt
              · rw [← hps]; simpa using hlt
        · rw [if_neg hc0] at h; exact absurd h (by simp)
  · rintro ⟨hs, hmv, hmt, hlt⟩
    have hls : lastSplitOn ':' s = some (v ++ '(' :: ps ++ [')'], t) := by
      rw [lastSplitOn_eq_some]
      constructor
      · rw [hs]; simp
      · exact hmt
    unfold viewMatch
    rw [hls]
    dsimp only
    have hrev : (v ++ '(' :: ps ++ [')']).reverse = ')' :: (ps.reverse ++ '(' :: v.reverse) := by
      simp
    rw [hrev]
    dsimp only
    rw [if_pos rfl]
    have hrr : (ps.reverse ++ '(' :: v.reverse).reverse = v ++ '(' :: ps := by
      simp
    rw [hrr, breakAtFirst_append '(' v ps hmv]
    dsimp only
    simp [hlt]

/-- Reduction of the parser once the `crud>` split is known: with
`mainParts = ["crud", seg, …]` and `seg` truthy, the result depends only on
whether `seg` contains `:` (view regular expression) or not (slash-separated
model form). -/
theorem parse_reduce (s seg : Str) (rest : List Str)
    (hsp : splitOnChar '>' s = strL "crud" :: seg :: rest) (hseg : seg ≠ []) :
    parseChannelResourceQuery s =
      (if ':' ∈ seg then
        match viewMatch seg with
        | none => ParseOutcome.crash
        | some (v, ps, t) => ParseOutcome.viewRes v ps t
      else
        match splitOnChar '/' seg with
        | [] => ParseOutcome.noMatch
        | ty :: restParts =>
          let idOpt : Option Str := match restParts with
            | [] => none
            | i :: _ => if i = [] then none else some i
          let fieldOpt : Option Str := match restParts with
            | _ :: f :: _ => if f = [] then none else some f
            | _ => none
          ParseOutcome.modelRes ty idOpt fieldOpt) := by
  unfold parseChannelResourceQuery
  rw [hsp]
  dsimp only
  rw [if_pos rfl, if_neg hseg]

/-- C9 counterexample: the channel name `crud>a:b` contains `:` after the
`crud>` prefix but does not match the view pattern, so `viewMatches` is
`null` and `viewMatches[1]` raises a `TypeError` — the parser neither
returns a descriptor nor returns nothing, contradicting the claim that it
is total and classifies every `:`-bearing name as a view. -/
theorem c9_parser_crash_cex :
    parseChannelResourceQuery (strL "crud>a:b") = ParseOutcome.crash ∧
    ParseOutcome.crash ≠ ParseOutcome.noMatch ∧
    (∀ v ps t, ParseOutcome.crash ≠ ParseOutcome.viewRes v ps t) := by
  refine ⟨rfl, by decide, ?_⟩
  intro v ps t h
  exact ParseOutcome.noConfusion h

/-- C9 (amended): for every input string the parser returns a model
descriptor, a view descriptor, or nothing — *except* that it raises exactly
when the segment after `crud>` contains `:` but admits no decomposition
`view ++ "(" ++ params ++ "):" ++ type` (first `(`, last `:`, no line
terminator in `params`).  When such a decomposition exists the view form is
returned, and a `:`-free segment yields the model form with optional id and
field. -/
theorem c9_parser_totality_amended (s : Str) :
    (parseChannelResourceQuery s = ParseOutcome.crash ↔
      (∃ seg rest, splitOnChar '>' s = strL "crud" :: seg :: rest ∧ ':' ∈ seg ∧
        ¬ ∃ v ps t, seg = v ++ '(' :: ps ++ ')' :: ':' :: t ∧ '(' ∉ v ∧ ':' ∉ t ∧
          ps.any isLineTerm = false)) ∧
    (∀ seg rest, splitOnChar '>' s = strL "crud" :: seg :: rest →
      ∀ v ps t, seg = v ++ '(' :: ps ++ ')' :: ':' :: t → '(' ∉ v → ':' ∉ t →
        ps.any isLineTerm = false →
        parseChannelResourceQuery s = ParseOutcome.viewRes v ps t) ∧
    (∀ seg rest, splitOnChar '>' s = strL "crud" :: seg :: rest → seg ≠ [] →
      ':' ∉ seg →
      ∃ ty idOpt fieldOpt,
        parseChannelResourceQuery s = ParseOutcome.modelRes ty idOpt fieldOpt) := by
  have hparse : ∀ seg rest, splitOnChar '>' s = strL "crud" :: seg :: rest →
      seg ≠ [] → ':' ∈ seg →
      parseChannelResourceQuery s = (match viewMatch seg with
        | none => ParseOutcome.crash
        | some (v, ps, t) => ParseOutcome.viewRes v ps t) := by
    intro seg rest hsp hseg hcolon
    rw [parse_reduce s seg rest hsp hseg, if_pos hcolon]
  refine ⟨?_, ?_, ?_⟩
  · constructor
    · intro hcrash
      cases hsp : splitOnChar '>' s with
      | nil => exact absurd hsp (splitOnChar_ne_nil '>' s)
      | cons mp0 rest0 =>
        by_cases hcrud : mp0 = strL "crud"
        · subst hcrud
          cases rest0 with
          | nil =>
            rw [show parseChannelResourceQuery s = ParseOutcome.noMatch by
              unfold parseChannelResourceQuery; rw [hsp]; dsimp only; rw [if_pos rfl]] at hcrash
            exact absurd hcrash (by decide)
          | cons seg rest =>
            by_cases hseg : seg = []
            · subst hseg
              rw [show parseChannelResourceQuery s = ParseOutcome.noMatch by
                unfold parseChannelResourceQuery; rw [hsp]; dsimp only
                rw [if_pos rfl, if_pos rfl]] at hcrash
              exact absurd hcrash (by decide)
            · by_cases hcolon : ':' ∈ seg
              · refine ⟨seg, rest, rfl, hcolon, ?_⟩
                rintro ⟨v, ps, t, hdec, hmv, hmt, hlt⟩
                have hvm : viewMatch seg = some (v, ps, t) :=
                  (viewMatch_eq_some seg v ps t).mpr ⟨hdec, hmv, hmt, hlt⟩
                rw [hparse seg rest hsp hseg hcolon, hvm] at hcrash
                exact absurd hcrash (by intro h; exact ParseOutcome.noConfusion h)
              · rw [parse_reduce s seg rest hsp hseg, if_neg hcolon] at hcrash
                cases hsp2 : splitOnChar '/' seg with
                | nil => exact absurd hsp2 (splitOnChar_ne_nil '/' seg)
                | cons ty restParts =>
                  rw [hsp2] at hcrash
                  exact absurd hcrash (by intro h; exact ParseOutcome.noConfusion h)
        · rw [show parseChannelResourceQuery s = ParseOutcome.noMatch by
            unfold parseChannelResourceQuery; rw [hsp]; dsimp only; rw [if_neg hcrud]] at hcrash
          exact absurd hcrash (by decide)
    · rintro ⟨seg, rest, hsp, hcolon, hnodec⟩
      have hseg : seg ≠ [] := by
        intro h; subst h; simp at hcolon
      cases hvm : viewMatch seg with
      | some triple =>
        obtain ⟨v, ps, t⟩ := triple
        obtain ⟨hdec, hmv, hmt, hlt⟩ := (viewMatch_eq_some seg v ps t).mp hvm
        exact absurd ⟨v, ps, t, hdec, hmv, hmt, hlt⟩ hnodec
      | none =>
        rw [hparse seg rest hsp hseg hcolon, hvm]
  · intro seg rest hsp v ps t hdec hmv hmt hlt
    have hcolon : ':' ∈ seg := by rw [hdec]; simp
    have hseg : seg ≠ [] := by
      intro h; subst h; simp at hcolon
    have hvm : viewMatch seg = some (v, ps, t) :=
      (viewMatch_eq_some seg v ps t).mpr ⟨hdec, hmv, hmt, hlt⟩
    rw [hparse seg rest hsp hseg hcolon, hvm]
  · intro seg rest hsp hseg hcolon
    rw [parse_reduce s seg rest hsp hseg, if_neg hcolon]
    cases hsp2 : splitOnChar '/' seg with
    | nil => exact absurd hsp2 (splitOnChar_ne_nil '/' seg)
    | cons ty restParts =>
      exact ⟨ty, _, _, rfl⟩

theorem chanPfx_split (seg : Str) (hseg : '>' ∉ seg) :
    splitOnChar '>' (chanPfx ++ seg) = [strL "crud", seg] := by
  rw [show chanPfx ++ seg = strL "crud" ++ '>' :: seg from rfl]
  rw [splitOnChar_append '>' (strL "crud") seg (by decide)]
  rw [splitOnChar_of_not_mem '>' seg hseg]

/-- C2 counterexample: `(Product, a/b)` is a valid resource identity — the
schema constrains neither `type` nor `id` beyond being (truthy) strings —
yet parsing its resource channel name yields the different identity
`(Product, a, field b)`, so `parse ∘ name` is not the identity. -/
theorem c2_roundtrip_cex :
    resourceChannelName (strL "Product") (strL "a/b") = strL "crud>Product/a/b" ∧
    parseChannelResourceQuery (resourceChannelName (strL "Product") (strL "a/b")) =
      ParseOutcome.modelRes (strL "Product") (some (strL "a")) (some (strL "b")) ∧
    ParseOutcome.modelRes (strL "Product") (some (strL "a")) (some (strL "b")) ≠
      ParseOutcome.modelRes (strL "Product") (some (strL "a/b")) none := by
  exact ⟨rfl, rfl, by decide⟩

/-- C2 (amended): channel names round-trip through the parser provided the
identity components avoid the delimiters the encoding relies on: `type`,
`id` and `field` nonempty and free of `>`, `/`, `:`; the view name free of
`>` and `(`; the canonical parameter string free of `>` and of line
terminators; view parameters not loosely `null`.  The recovered view
parameter payload is the canonical string `stableStringify params` (the
source `JSON.parse`s that string back), so identities whose parameters
canonicalize identically parse identically. -/
theorem c2_roundtrip_amended
    (ty id field viewName : Str) (params : JS)
    (hty : ty ≠ [] ∧ '>' ∉ ty ∧ '/' ∉ ty ∧ ':' ∉ ty)
    (hid : id ≠ [] ∧ '>' ∉ id ∧ '/' ∉ id ∧ ':' ∉ id)
    (hfield : field ≠ [] ∧ '>' ∉ field ∧ '/' ∉ field ∧ ':' ∉ field)
    (hview : '>' ∉ viewName ∧ '(' ∉ viewName)
    (hparams : params.isLooseNull = false)
    (hps : '>' ∉ stableStringify params ∧
      (stableStringify params).any isLineTerm = false) :
    parseChannelResourceQuery (resourceChannelName ty id) =
      ParseOutcome.modelRes ty (some id) none ∧
    parseChannelResourceQuery (fieldChannelName ty id field) =
      ParseOutcome.modelRes ty (some id) (some field) ∧
    parseChannelResourceQuery (viewChannelName viewName params ty) =
      ParseOutcome.viewRes viewName (stableStringify params) ty := by
  obtain ⟨hty1, hty2, hty3, hty4⟩ := hty
  obtain ⟨hid1, hid2, hid3, hid4⟩ := hid
  obtain ⟨hf1, hf2, hf3, hf4⟩ := hfield
  obtain ⟨hv1, hv2⟩ := hview
  obtain ⟨hps1, hps2⟩ := hps
  refine ⟨?_, ?_, ?_⟩
  · have hname : resourceChannelName ty id = chanPfx ++ (ty ++ '/' :: id) := by
      simp [resourceChannelName, List.append_assoc]
    have hmem : '>' ∉ ty ++ '/' :: id := by
      simp only [List.mem_append, List.mem_cons, not_or]
      exact ⟨hty2, by decide, hid2⟩
    have hsp := chanPfx_split (ty ++ '/' :: id) hmem
    rw [hname, parse_reduce (chanPfx ++ (ty ++ '/' :: id)) (ty ++ '/' :: id) [] hsp
      (by simp [hty1])]
    have hcolon : ':' ∉ ty ++ '/' :: id := by
      simp only [List.mem_append, List.mem_cons, not_or]
      exact ⟨hty4, by decide, hid4⟩
    rw [if_neg hcolon]
    rw [splitOnChar_append '/' ty id hty3, splitOnChar_of_not_mem '/' id hid3]
    simp [hid1]
  · have hname : fieldChannelName ty id field =
        chanPfx ++ (ty ++ '/' :: (id ++ '/' :: field)) := by
      simp [fieldChannelName, List.append_assoc]
    have hmem : '>' ∉ ty ++ '/' :: (id ++ '/' :: field) := by
      simp only [List.mem_append, List.mem_cons, not_or]
      exact ⟨hty2, by decide, hid2, by decide, hf2⟩
    have hsp := chanPfx_split _ hmem
    rw [hname, parse_reduce _ _ [] hsp (by simp [hty1])]
    have hcolon : ':' ∉ ty ++ '/' :: (id ++ '/' :: field) := by
      simp only [List.mem_append, List.mem_cons, not_or]
      exact ⟨hty4, by decide, hid4, by decide, hf4⟩
    rw [if_neg hcolon]
    rw [splitOnChar_append '/' ty _ hty3, splitOnChar_append '/' id field hid3,
      splitOnChar_of_not_mem '/' field hf3]
    simp [hid1, hf1]
  · have hname : viewChannelName viewName params ty =
        chanPfx ++ (viewName ++ '(' :: stableStringify params ++ ')' :: ':' :: ty) := by
      simp [viewChannelName, hparams, List.append_assoc]
    have hmem : '>' ∉ viewName ++ '(' :: stableStringify params ++ ')' :: ':' :: ty := by
      intro hcon
      rcases List.mem_append.mp hcon with h | h
      · rcases List.mem_append.mp h with h | h
        · exact hv1 h
        · rcases List.mem_cons.mp h with h | h
          · exact absurd h (by decide)
          · exact hps1 h
      · rcases List.mem_cons.mp h with h | h
        · exact absurd h (by decide)
        · rcases List.mem_cons.mp h with h | h
          · exact absurd h (by decide)
          · exact hty2 h
    have hsp := chanPfx_split _ hmem
    rw [hname, parse_reduce _ _ [] hsp (by simp)]
    have hcolon : ':' ∈ viewName ++ '(' :: stableStringify params ++ ')' :: ':' :: ty := by
      simp
    rw [if_pos hcolon]
    have hvm : viewMatch (viewName ++ '(' :: stableStringify params ++ ')' :: ':' :: ty) =
        some (viewName, stableStringify params, ty) := by
      rw [viewMatch_eq_some]
      exact ⟨rfl, hv2, hty4, hps2⟩
    rw [hvm]

/-- C2 witness: the amended round-trip at the spec's literal identities —
`(Product, p1)`, `(Product, p1, categoryId)` and
`(byCat, \x7bcategoryId: c1\x7d, Product)`. -/
theorem c2_roundtrip_amended_witness :
    parseChannelResourceQuery (resourceChannelName (strL "Product") (strL "p1")) =
      ParseOutcome.modelRes (strL "Product") (some (strL "p1")) none ∧
    parseChannelResourceQuery
        (fieldChannelName (strL "Product") (strL "p1") (strL "categoryId")) =
      ParseOutcome.modelRes (strL "Product") (some (strL "p1")) (some (strL "categoryId")) ∧
    parseChannelResourceQuery
        (viewChannelName (strL "byCat")
          (JS.obj [(strL "categoryId", JS.str (strL "c1"))]) (strL "Product")) =
      ParseOutcome.viewRes (strL "byCat")
        (stableStringify (JS.obj [(strL "categoryId", JS.str (strL "c1"))]))
        (strL "Product") :=
  c2_roundtrip_amended (strL "Product") (strL "p1") (strL "categoryId") (strL "byCat")
    (JS.obj [(strL "categoryId", JS.str (strL "c1"))])
    (by refine ⟨by decide, by decide, by decide, by decide⟩)
    (by refine ⟨by decide, by decide, by decide, by decide⟩)
    (by refine ⟨by decide, by decide, by decide, by decide⟩)
    (by refine ⟨by decide, by decide⟩)
    rfl
    (by constructor
        · rw [show stableStringify (JS.obj [(strL "categoryId", JS.str (strL "c1"))]) =
            strL "\x7b\"categoryId\":\"c1\"\x7d" from rfl]
          decide
        · rw [show stableStringify (JS.obj [(strL "categoryId", JS.str (strL "c1"))]) =
            strL "\x7b\"categoryId\":\"c1\"\x7d" from rfl]
          decide)

/-- C9 witness: the amended classification at a concrete well-formed view
channel name. -/
theorem c9_parser_totality_amended_witness :
    parseChannelResourceQuery (strL "crud>v(x):T") =
      ParseOutcome.viewRes (strL "v") (strL "x") (strL "T") :=
  (c9_parser_totality_amended (strL "crud>v(x):T")).2.1 (strL "v(x):T") []
    (by decide) (strL "v") (strL "x") (strL "T") (by decide) (by decide) (by decide)
    (by decide)

/-! Lemmas about the cache state machine. -/

theorem cachePass_fresh (s : CacheState) (q : CQuery) (path : Str) (cb : Nat)
    (hdis : s.cacheDisabled = false) (hpath : getResourcePath q = some path)
    (hentry : s.cache.lookup path = none) :
    cachePass s q cb =
      (cacheSet (pushWatcher s path cb) pendingMarker path,
        PassOutcome.startedFetch path, []) := by
  unfold cachePass
  rw [hdis, hpath]
  dsimp only
  have hget : cacheGet s path = JS.undef := by
    unfold cacheGet
    rw [hentry]
    rfl
  rw [hget]
  dsimp only [JS.truthy]
  rfl

theorem cachePass_join (s : CacheState) (q : CQuery) (path : Str) (cb : Nat)
    (hdis : s.cacheDisabled = false) (hpath : getResourcePath q = some path)
    (ht : (cacheGet s path).truthy = true)
    (hp : ((cacheGet s path).getProp (strL "pending")).truthy = true) :
    cachePass s q cb = (pushWatcher s path cb, PassOutcome.joined, []) := by
  unfold cachePass
  rw [hdis, hpath]
  dsimp only
  rw [ht, hp]
  rfl

theorem runPasses_join (q : CQuery) (path : Str) (cbs : List Nat)
    (s : CacheState) (w0 : List Nat)
    (hdis : s.cacheDisabled = false) (hpath : getResourcePath q = some path)
    (ht : (cacheGet s path).truthy = true)
    (hp : ((cacheGet s path).getProp (strL "pending")).truthy = true)
    (hw : s.watchers.lookup path = some w0) :
    (runPasses s q cbs).1.cacheDisabled = false ∧
    (runPasses s q cbs).1.cache = s.cache ∧
    (runPasses s q cbs).1.watchers.lookup path = some (w0 ++ cbs) ∧
    (runPasses s q cbs).2.1 = 0 ∧
    (runPasses s q cbs).2.2 = [] := by
  induction cbs generalizing s w0 with
  | nil =>
    refine ⟨hdis, rfl, ?_, rfl, rfl⟩
    simpa using hw
  | cons cb rest ih =>
    have hpass := cachePass_join s q path cb hdis hpath ht hp
    have hw1 : (pushWatcher s path cb).watchers.lookup path = some (w0 ++ [cb]) := by
      unfold pushWatcher
      dsimp only
      rw [lookup_updAssoc_self, hw]
      rfl
    have ih2 := ih (pushWatcher s path cb) (w0 ++ [cb]) hdis ht hp hw1
    unfold runPasses
    rw [hpass]
    dsimp only
    refine ⟨ih2.1, ih2.2.1, ?_, by simp [ih2.2.2.2.1], by simp [ih2.2.2.2.2]⟩
    rw [ih2.2.2.1]
    simp

theorem processCacheWatchers_eq (s : CacheState) (path : Str) (error data : JS)
    (l : List Nat) (hl : s.watchers.lookup path = some l) :
    processCacheWatchers s path error data =
      ({ s with watchers := delAssoc s.watchers path },
        if error.truthy then l.map (fun cb => Delivery.mk cb error JS.undef)
        else l.map (fun cb => Delivery.mk cb JS.null data)) := by
  unfold processCacheWatchers
  rw [hl]
  rfl

theorem pendingWrapper_truthy : pendingWrapper.truthy = true := rfl

theorem pendingWrapper_patch : pendingWrapper.getProp (strL "patch") = JS.undef := rfl

theorem applyPatchProps_undef (data : JS) : applyPatchProps JS.undef data = data := rfl

/-- Completion of the single in-flight fetch: whatever error or document the
provider reports, every registered watcher is notified once, in enqueue
order, with that same error or document.  (The pending wrapper's `patch`
read is `undefined` here, so the fetched document passes through unchanged.) -/
theorem cacheProviderCallback_pending (s : CacheState) (path : Str) (err data : JS)
    (l : List Nat)
    (hc : s.cache.lookup path = some pendingWrapper)
    (hl : s.watchers.lookup path = some l) :
    (cacheProviderCallback s path err data).2 =
      l.map (fun c => Delivery.mk c (if err.truthy then err else JS.null)
        (if err.truthy then JS.undef else data)) := by
  by_cases he : err.truthy
  · unfold cacheProviderCallback
    rw [if_pos he, processCacheWatchers_eq s path err data l hl]
    simp [he]
  · have hpw : cacheProviderCallback s path err data =
        processCacheWatchers (cacheSet s (JS.obj [(strL "resource", data)]) path)
          path JS.null data := by
      unfold cacheProviderCallback
      rw [if_neg he, hc]
      rfl
    rw [hpw]
    have hl2 : (cacheSet s (JS.obj [(strL "resource", data)]) path).watchers.lookup
        path = some l := hl
    rw [processCacheWatchers_eq _ path JS.null data l hl2]
    have hnull : JS.null.truthy = false := rfl
    simp only [Bool.not_eq_true] at he
    simp [hnull, he]

theorem cacheProviderCallback_error_state (s : CacheState) (path : Str)
    (err data : JS) (he : err.truthy = true) :
    (cacheProviderCallback s path err data).1.cache = s.cache := by
  unfold cacheProviderCallback
  rw [if_pos he]
  rfl

/-- C1: single-flight reads.  Starting from a cache with no entry and no
watchers for `(type, id)` (caching enabled), any number `N ≥ 1` of
`read`-style passes for that key — exactly what `read`-by-id does when it
drains its buffered callers through `Cache.pass` — invokes the
`dataProvider` exactly once (the first call; every later call joins the
pending entry), delivers nothing early, and when the single fetch completes
every one of the `N` callbacks is resolved exactly once, in enqueue order,
with the same document (`(null, data)`) or the same error. -/
theorem c1_single_flight_reads
    (s0 : CacheState) (q : CQuery) (path : Str) (cbs : List Nat) (err data : JS)
    (hdis : s0.cacheDisabled = false)
    (hpath : getResourcePath q = some path)
    (hentry : s0.cache.lookup path = none)
    (hw : s0.watchers.lookup path = none)
    (hne : cbs ≠ []) :
    (runPasses s0 q cbs).2.1 = 1 ∧
    (runPasses s0 q cbs).2.2 = [] ∧
    (cacheProviderCallback (runPasses s0 q cbs).1 path err data).2 =
      cbs.map (fun c => Delivery.mk c (if err.truthy then err else JS.null)
        (if err.truthy then JS.undef else data)) := by
  cases cbs with
  | nil => exact absurd rfl hne
  | cons cb rest =>
    have hpass := cachePass_fresh s0 q path cb hdis hpath hentry
    have hs1cache : (cacheSet (pushWatcher s0 path cb) pendingMarker path).cache.lookup
        path = some pendingWrapper := lookup_updAssoc_self _ _ _
    have hget1 : cacheGet (cacheSet (pushWatcher s0 path cb) pendingMarker path) path =
        pendingMarker := by
      unfold cacheGet
      rw [hs1cache]
      rfl
    have hw1 : (cacheSet (pushWatcher s0 path cb) pendingMarker path).watchers.lookup
        path = some [cb] := by
      show (pushWatcher s0 path cb).watchers.lookup path = some [cb]
      unfold pushWatcher
      dsimp only
      rw [lookup_updAssoc_self, hw]
      rfl
    have hrun := runPasses_join q path rest
      (cacheSet (pushWatcher s0 path cb) pendingMarker path) [cb]
      hdis hpath (by rw [hget1]; rfl) (by rw [hget1]; rfl) hw1
    have hre : runPasses s0 q (cb :: rest) =
        ((runPasses (cachePass s0 q cb).1 q rest).1,
          (match (cachePass s0 q cb).2.1 with
            | PassOutcome.joined => 0
            | _ => 1) + (runPasses (cachePass s0 q cb).1 q rest).2.1,
          (cachePass s0 q cb).2.2 ++ (runPasses (cachePass s0 q cb).1 q rest).2.2) := rfl
    rw [hre, hpass]
    dsimp only
    refine ⟨by rw [hrun.2.2.2.1], by simp [hrun.2.2.2.2], ?_⟩
    have hcache2 : (runPasses (cacheSet (pushWatcher s0 path cb) pendingMarker path)
        q rest).1.cache.lookup path = some pendingWrapper := by
      rw [hrun.2.1]
      exact hs1cache
    have hwatch2 : (runPasses (cacheSet (pushWatcher s0 path cb) pendingMarker path)
        q rest).1.watchers.lookup path = some (cb :: rest) := by
      rw [hrun.2.2.1]
      rfl
    exact cacheProviderCallback_pending _ path err data (cb :: rest) hcache2 hwatch2

/-- C1 witness: three concurrent reads of `(T, i)` on a fresh cache — one
provider invocation, no early deliveries, and on completion all three
callbacks get the same document. -/
theorem c1_single_flight_reads_witness :
    (runPasses ⟨false, [], []⟩ ⟨strL "T", strL "i"⟩ [0, 1, 2]).2.1 = 1 ∧
    (runPasses ⟨false, [], []⟩ ⟨strL "T", strL "i"⟩ [0, 1, 2]).2.2 = [] ∧
    (cacheProviderCallback (runPasses ⟨false, [], []⟩ ⟨strL "T", strL "i"⟩ [0, 1, 2]).1
        (strL "T/i") JS.null (JS.str (strL "doc"))).2 =
      [0, 1, 2].map (fun c => Delivery.mk c
        (if JS.null.truthy then JS.null else JS.null)
        (if JS.null.truthy then JS.undef else JS.str (strL "doc"))) :=
  c1_single_flight_reads ⟨false, [], []⟩ ⟨strL "T", strL "i"⟩ (strL "T/i") [0, 1, 2]
    JS.null (JS.str (strL "doc")) rfl rfl rfl rfl (by decide)

theorem cacheProviderCallback_error_disabled (s : CacheState) (path : Str)
    (err data : JS) (he : err.truthy = true) :
    (cacheProviderCallback s path err data).1.cacheDisabled = s.cacheDisabled := by
  unfold cacheProviderCallback
  rw [if_pos he]
  rfl

/-- C5 (amended): when the fetch started by `pass` fails, every registered
waiter receives that error and no resolved entry is stored — but the source
never deletes the pending entry it installed, so the entry (still marked
pending) remains in the cache until its TTL fires, and a subsequent `pass`
for the same key *joins* that stale pending entry: it invokes no fresh
`dataProvider` and delivers nothing. -/
theorem c5_error_amended
    (s0 : CacheState) (q : CQuery) (path : Str) (cbs : List Nat) (err data : JS)
    (cb2 : Nat)
    (hdis : s0.cacheDisabled = false)
    (hpath : getResourcePath q = some path)
    (hentry : s0.cache.lookup path = none)
    (hw : s0.watchers.lookup path = none)
    (hne : cbs ≠ [])
    (herr : err.truthy = true) :
    (cacheProviderCallback (runPasses s0 q cbs).1 path err data).2 =
      cbs.map (fun c => Delivery.mk c err JS.undef) ∧
    (cacheProviderCallback (runPasses s0 q cbs).1 path err data).1.cache.lookup path =
      some pendingWrapper ∧
    (cachePass (cacheProviderCallback (runPasses s0 q cbs).1 path err data).1 q cb2).2.1 =
      PassOutcome.joined ∧
    (cachePass (cacheProviderCallback (runPasses s0 q cbs).1 path err data).1 q cb2).2.2 =
      [] := by
  cases cbs with
  | nil => exact absurd rfl hne
  | cons cb rest =>
    have hpass := cachePass_fresh s0 q path cb hdis hpath hentry
    have hs1cache : (cacheSet (pushWatcher s0 path cb) pendingMarker path).cache.lookup
        path = some pendingWrapper := lookup_updAssoc_self _ _ _
    have hget1 : cacheGet (cacheSet (pushWatcher s0 path cb) pendingMarker path) path =
        pendingMarker := by
      unfold cacheGet
      rw [hs1cache]
      rfl
    have hw1 : (cacheSet (pushWatcher s0 path cb) pendingMarker path).watchers.lookup
        path = some [cb] := by
      show (pushWatcher s0 path cb).watchers.lookup path = some [cb]
      unfold pushWatcher
      dsimp only
      rw [lookup_updAssoc_self, hw]
      rfl
    have hrun := runPasses_join q path rest
      (cacheSet (pushWatcher s0 path cb) pendingMarker path) [cb]
      hdis hpath (by rw [hget1]; rfl) (by rw [hget1]; rfl) hw1
    have hre : runPasses s0 q (cb :: rest) =
        ((runPasses (cachePass s0 q cb).1 q rest).1,
          (match (cachePass s0 q cb).2.1 with
            | PassOutcome.joined => 0
            | _ => 1) + (runPasses (cachePass s0 q cb).1 q rest).2.1,
          (cachePass s0 q cb).2.2 ++ (runPasses (cachePass s0 q cb).1 q rest).2.2) := rfl
    have hcache2 : (runPasses s0 q (cb :: rest)).1.cache.lookup path =
        some pendingWrapper := by
      rw [hre, hpass]
      dsimp only
      rw [hrun.2.1]
      exact hs1cache
    have hwatch2 : (runPasses s0 q (cb :: rest)).1.watchers.lookup path =
        some (cb :: rest) := by
      rw [hre, hpass]
      dsimp only
      rw [hrun.2.2.1]
      rfl
    have hdis2 : (runPasses s0 q (cb :: rest)).1.cacheDisabled = false := by
      rw [hre, hpass]
      dsimp only
      exact hrun.1
    have hdels := cacheProviderCallback_pending (runPasses s0 q (cb :: rest)).1 path err
      data (cb :: rest) hcache2 hwatch2
    have hcache3 : (cacheProviderCallback (runPasses s0 q (cb :: rest)).1 path err
        data).1.cache.lookup path = some pendingWrapper := by
      rw [cacheProviderCallback_error_state _ path err data herr]
      exact hcache2
    have hdis3 : (cacheProviderCallback (runPasses s0 q (cb :: rest)).1 path err
        data).1.cacheDisabled = false := by
      rw [cacheProviderCallback_error_disabled _ path err data herr]
      exact hdis2
    have hget3 : cacheGet (cacheProviderCallback (runPasses s0 q (cb :: rest)).1 path err
        data).1 path = pendingMarker := by
      unfold cacheGet
      rw [hcache3]
      rfl
    have hjoin := cachePass_join _ q path cb2 hdis3 hpath
      (by rw [hget3]; rfl) (by rw [hget3]; rfl)
    refine ⟨?_, hcache3, by rw [hjoin], by rw [hjoin]⟩
    rw [hdels]
    simp [herr]

/-- C5 counterexample: a single read of `(T, i)` whose fetch fails with
`"boom"` leaves the cache *still holding* an entry for `T/i`, and a second
`pass` for the same key joins it (`PassOutcome.joined`) instead of starting
a fresh `dataProvider` invocation — contradicting the claim that after an
error the cache holds no entry for the key and a subsequent pass starts a
fresh fetch. -/
theorem c5_error_cex :
    ((cacheProviderCallback (runPasses ⟨false, [], []⟩ ⟨strL "T", strL "i"⟩ [0]).1
        (strL "T/i") (JS.str (strL "boom")) JS.undef).1.cache.lookup
      (strL "T/i")).isSome = true ∧
    (cachePass (cacheProviderCallback (runPasses ⟨false, [], []⟩ ⟨strL "T", strL "i"⟩
        [0]).1 (strL "T/i") (JS.str (strL "boom")) JS.undef).1
      ⟨strL "T", strL "i"⟩ 1).2.1 = PassOutcome.joined := ⟨rfl, rfl⟩

/-- C5 witness: the amended behaviour at the concrete failing trace. -/
theorem c5_error_amended_witness :
    (cacheProviderCallback (runPasses ⟨false, [], []⟩ ⟨strL "T", strL "i"⟩ [0]).1
        (strL "T/i") (JS.str (strL "boom")) JS.undef).2 =
      [0].map (fun c => Delivery.mk c (JS.str (strL "boom")) JS.undef) ∧
    (cacheProviderCallback (runPasses ⟨false, [], []⟩ ⟨strL "T", strL "i"⟩ [0]).1
        (strL "T/i") (JS.str (strL "boom")) JS.undef).1.cache.lookup (strL "T/i") =
      some pendingWrapper ∧
    (cachePass (cacheProviderCallback (runPasses ⟨false, [], []⟩ ⟨strL "T", strL "i"⟩
        [0]).1 (strL "T/i") (JS.str (strL "boom")) JS.undef).1
      ⟨strL "T", strL "i"⟩ 1).2.1 = PassOutcome.joined ∧
    (cachePass (cacheProviderCallback (runPasses ⟨false, [], []⟩ ⟨strL "T", strL "i"⟩
        [0]).1 (strL "T/i") (JS.str (strL "boom")) JS.undef).1
      ⟨strL "T", strL "i"⟩ 1).2.2 = [] :=
  c5_error_amended ⟨false, [], []⟩ ⟨strL "T", strL "i"⟩ (strL "T/i") [0]
    (JS.str (strL "boom")) JS.undef 1 rfl rfl rfl rfl (by decide) rfl

/-- C3: patch coherence fails in the source.  With a fetch pending for
`(T, i)`, a field-channel update `\x7btype:'update', value:'v'\x7d` for `F` is
recorded in the pending entry's `patch` — but the completion closure reads
`self._cache[path].patch`, i.e. the `patch` property of the *wrapper*
`\x7bresource: …, timeout: …\x7d`, which is `undefined`, so the patch is never
merged: the waiter receives the fetched document with `F = "w"`, not the
patched value `"v"`. -/
theorem c3_patch_lost_eval :
    (cacheUpdate (runPasses ⟨false, [], []⟩ ⟨strL "T", strL "i"⟩ [0]).1
        (strL "crud>T/i/F")
        (JS.obj [(strL "type", JS.str (strL "update")),
                 (strL "value", JS.str (strL "v"))])).map
      (fun s2 => ((cacheGet s2 (strL "T/i")).getProp (strL "patch")).getProp (strL "F")) =
      some (JS.str (strL "v")) ∧
    (cacheUpdate (runPasses ⟨false, [], []⟩ ⟨strL "T", strL "i"⟩ [0]).1
        (strL "crud>T/i/F")
        (JS.obj [(strL "type", JS.str (strL "update")),
                 (strL "value", JS.str (strL "v"))])).map
      (fun s2 => (cacheProviderCallback s2 (strL "T/i") JS.null
        (JS.obj [(strL "F", JS.str (strL "w"))])).2) =
      some [Delivery.mk 0 JS.null (JS.obj [(strL "F", JS.str (strL "w"))])] ∧
    JS.str (strL "w") ≠ JS.str (strL "v") := by
  refine ⟨rfl, rfl, ?_⟩
  intro h
  injection h with h2
  exact absurd h2 (by decide)

theorem JS.getProp_setProp_obj_self (ps : List (Str × JS)) (k : Str) (v : JS) :
    ((JS.obj ps).setProp k v).getProp k = v := by
  simp [JS.setProp, JS.getProp, lookup_updAssoc_self]

theorem JS.getProp_setProp_obj_ne (ps : List (Str × JS)) (k k2 : Str) (v : JS)
    (h : k2 ≠ k) : ((JS.obj ps).setProp k v).getProp k2 = (JS.obj ps).getProp k2 := by
  simp [JS.setProp, JS.getProp, lookup_updAssoc_ne ps k k2 v h]

theorem JS.hasProp_setProp_obj_self (ps : List (Str × JS)) (k : Str) (v : JS) :
    ((JS.obj ps).setProp k v).hasProp k = true := by
  simp [JS.setProp, JS.hasProp, lookup_updAssoc_self]

theorem JS.hasProp_setProp_obj_ne (ps : List (Str × JS)) (k k2 : Str) (v : JS)
    (h : k2 ≠ k) : ((JS.obj ps).setProp k v).hasProp k2 = (JS.obj ps).hasProp k2 := by
  simp [JS.setProp, JS.hasProp, lookup_updAssoc_ne ps k k2 v h]

/-- C6: create with an unknown model type is not atomic in the source.  The
callback does receive `CRUDInvalidModelType` first, and no store insert is
attempted — but the missing `else` before `if (typeof query.value ==
'object')` (src/index.js line 203) lets execution continue: with a
non-object `value` the callback fires a *second* time with
`CRUDInvalidParams`, and with an object `value` the expression
`new ModelClass(query.value)` evaluates with `ModelClass == null` and throws
an uncaught `TypeError`.  The third conjunct shows the intended behaviour
when the type is in the schema. -/
theorem c6_create_unknown_type_eval :
    createDispatch false (JS.num 7) =
      CreateResult.mk [ErrName.CRUDInvalidModelType, ErrName.CRUDInvalidParams]
        false false ∧
    createDispatch false (JS.obj [(strL "name", JS.str (strL "x"))]) =
      CreateResult.mk [ErrName.CRUDInvalidModelType] true false ∧
    createDispatch true (JS.obj [(strL "name", JS.str (strL "x"))]) =
      CreateResult.mk [] false true :=
  ⟨rfl, rfl, rfl⟩

/-- C7 counterexample: an update whose `value` object carries an `id` entry
is *not* rejected with `CRUDInvalidOperation` — the dispatch reports no
error, schedules the load-and-save task chain, and `id` is among the fields
assigned onto the loaded instance before `save`.  Only the
`query.field == 'id'` form is guarded. -/
theorem c7_id_in_value_cex :
    updateDispatch true
      (UQuery.mk (strL "Product") (JS.str (strL "p1")) JS.undef
        (JS.obj [(strL "id", JS.str (strL "p2")), (strL "name", JS.str (strL "n"))])) =
      UpdateDispatch.mk none true [strL "id", strL "name"] := rfl

/-- C7 (amended): updates through `query.field == 'id'` are rejected with
`CRUDInvalidOperation` — no task is planned, so no store mutation and (since
`savedHandler` short-circuits on a truthy error) no publish happens.  An
`id` entry inside `query.value`, however, is not rejected: the mutation
proceeds and `id` is assigned like any other field. -/
theorem c7_id_immutability_amended (q : UQuery)
    (hid : q.id.isLooseNull = false) :
    (q.field = JS.str (strL "id") →
      updateDispatch true q =
        UpdateDispatch.mk (some ErrName.CRUDInvalidOperation) false []) ∧
    (∀ ps, q.field.truthy = false → q.value = JS.obj ps →
      updateDispatch true q = UpdateDispatch.mk none true (ps.map (fun kv => kv.1))) := by
  constructor
  · intro hf
    unfold updateDispatch
    rw [hid, hf]
    have hne2 : strL "id" ≠ [] := by decide
    simp [JS.truthy, JS.looseEq, hne2]
  · intro ps hf hv
    unfold updateDispatch
    rw [hid, hf, hv]
    simp [JS.typeofObject, JS.objKeys]

/-- C7 witness: the amended dispatch outcomes at concrete queries. -/
theorem c7_id_immutability_amended_witness :
    updateDispatch true
      (UQuery.mk (strL "Product") (JS.str (strL "p1")) (JS.str (strL "id"))
        (JS.str (strL "p9"))) =
      UpdateDispatch.mk (some ErrName.CRUDInvalidOperation) false [] ∧
    updateDispatch true
      (UQuery.mk (strL "Product") (JS.str (strL "p1")) JS.undef
        (JS.obj [(strL "id", JS.str (strL "p9"))])) =
      UpdateDispatch.mk none true [strL "id"] :=
  ⟨(c7_id_immutability_amended
      (UQuery.mk (strL "Product") (JS.str (strL "p1")) (JS.str (strL "id"))
        (JS.str (strL "p9"))) rfl).1 rfl,
   (c7_id_immutability_amended
      (UQuery.mk (strL "Product") (JS.str (strL "p1")) JS.undef
        (JS.obj [(strL "id", JS.str (strL "p9"))])) rfl).2
     [(strL "id", JS.str (strL "p9"))] rfl rfl⟩

/-- C4 counterexample: the spec's S3 scenario — `Product/p1` moves from
`byCat(categoryId c1)` (offset 0) to `byCat(categoryId c2)` (offset 3) via
`update({type:'Product', id:'p1', value:{categoryId:'c2'}})`.  The source
publishes the resource channel, the `categoryId` field channel, and
`freshness:'old'` / `freshness:'new'` messages on the old and new view
channels; *no* published message carries an `action` property, so the
claimed `\x7baction:'remove', id\x7d` and `\x7baction:'add', id\x7d` payloads are
never published. -/
theorem c4_no_remove_add_cex :
    updateSavedHandlerPubs
        (UQuery.mk (strL "Product") (JS.str (strL "p1")) JS.undef
          (JS.obj [(strL "categoryId", JS.str (strL "c2"))]))
        [(strL "byCat", JS.obj [(strL "viewParams",
            JS.obj [(strL "categoryId", JS.str (strL "c1"))]),
          (strL "offset", JS.num 0)])]
        [(strL "byCat", JS.obj [(strL "viewParams",
            JS.obj [(strL "categoryId", JS.str (strL "c2"))]),
          (strL "offset", JS.num 3)])]
        none =
      [(strL "crud>Product/p1", JS.num 1),
       (strL "crud>Product/p1/categoryId",
        JS.obj [(strL "type", JS.str (strL "update")),
                (strL "value", JS.str (strL "c2"))]),
       (strL "crud>byCat(\x7b\"categoryId\":\"c1\"\x7d):Product",
        JS.obj [(strL "type", JS.str (strL "update")),
                (strL "freshness", JS.str (strL "old")),
                (strL "id", JS.str (strL "p1")), (strL "offset", JS.num 0)]),
       (strL "crud>byCat(\x7b\"categoryId\":\"c2\"\x7d):Product",
        JS.obj [(strL "type", JS.str (strL "update")),
                (strL "freshness", JS.str (strL "new")),
                (strL "id", JS.str (strL "p1")), (strL "offset", JS.num 3)])] ∧
    (updateSavedHandlerPubs
        (UQuery.mk (strL "Product") (JS.str (strL "p1")) JS.undef
          (JS.obj [(strL "categoryId", JS.str (strL "c2"))]))
        [(strL "byCat", JS.obj [(strL "viewParams",
            JS.obj [(strL "categoryId", JS.str (strL "c1"))]),
          (strL "offset", JS.num 0)])]
        [(strL "byCat", JS.obj [(strL "viewParams",
            JS.obj [(strL "categoryId", JS.str (strL "c2"))]),
          (strL "offset", JS.num 3)])]
        none).all
      (fun p => (p.2.getProp (strL "action")).isUndef) = true :=
  ⟨rfl, rfl⟩

/-- C4 (amended): for an update with a changed `paramField`, the source
publishes on the resource channel (payload `1`), publishes
`\x7btype:'update', value\x7d` on one field channel per entry of `query.value`
(`undefined` normalized to `null`), and then — only when the document's old
and new offsets in the view differ under JavaScript `!=` — publishes
`\x7btype:'update', freshness:'old', id, offset\x7d` on the view channel named
with the *old* view params and `\x7btype:'update', freshness:'new', id,
offset\x7d` on the view channel named with the *new* view params (no
`action:'remove'`/`'add'` messages).  When the offsets are loosely equal the
view publishes nothing. -/
theorem c4_update_view_pubs_amended
    (ty : Str) (id : JS) (value : List (Str × JS)) (v : Str) (p1 p2 o1 o2 : JS) :
    updateSavedHandlerPubs (UQuery.mk ty id JS.undef (JS.obj value))
        [(v, JS.obj [(strL "viewParams", p1), (strL "offset", o1)])]
        [(v, JS.obj [(strL "viewParams", p2), (strL "offset", o2)])] none =
      (resourceChannelName ty id.coerceStr, JS.num 1) ::
      value.map (fun kv =>
        (fieldChannelName ty id.coerceStr kv.1,
          JS.obj [(strL "type", JS.str (strL "update")),
                  (strL "value", if kv.2.isUndef then JS.null else kv.2)])) ++
      (if JS.looseEq o1 o2 then []
       else
        [(viewChannelName v p1 ty,
          JS.obj [(strL "type", JS.str (strL "update")),
                  (strL "freshness", JS.str (strL "old")),
                  (strL "id", id), (strL "offset", o1)]),
         (viewChannelName v p2 ty,
          JS.obj [(strL "type", JS.str (strL "update")),
                  (strL "freshness", JS.str (strL "new")),
                  (strL "id", id), (strL "offset", o2)])]) := by
  have e1 : (strL "offset" == strL "viewParams") = false := by decide
  have e2 : (strL "offset" == strL "offset") = true := by decide
  unfold updateSavedHandlerPubs
  dsimp only
  have hfield : JS.undef.truthy = false := rfl
  rw [hfield]
  simp only [Bool.false_eq_true, if_false, List.map_cons, List.map_nil,
    List.flatten_cons, List.flatten_nil]
  have hlook : List.lookup v [(v, JS.obj [(strL "viewParams", p1), (strL "offset", o1)])] =
      some (JS.obj [(strL "viewParams", p1), (strL "offset", o1)]) := by
    simp [List.lookup]
  rw [hlook]
  have hgetOld : (JS.obj [(strL "viewParams", p1), (strL "offset", o1)]).getProp
      (strL "offset") = o1 := by
    simp [JS.getProp, List.lookup, e1, e2]
  have hgetNew : (JS.obj [(strL "viewParams", p2), (strL "offset", o2)]).getProp
      (strL "offset") = o2 := by
    simp [JS.getProp, List.lookup, e1, e2]
  have hgetOldP : (JS.obj [(strL "viewParams", p1), (strL "offset", o1)]).getProp
      (strL "viewParams") = p1 := by
    simp [JS.getProp, List.lookup]
  have hgetNewP : (JS.obj [(strL "viewParams", p2), (strL "offset", o2)]).getProp
      (strL "viewParams") = p2 := by
    simp [JS.getProp, List.lookup]
  rw [Option.getD_some, hgetOld, hgetNew, hgetOldP, hgetNewP]
  by_cases heq : JS.looseEq o1 o2
  · rw [if_pos heq, if_pos heq]
    simp
  · rw [if_neg heq, if_neg heq]
    simp [isWithinRealtimeBounds]

theorem take_min_length {α : Type} (l : List α) (n : Nat) :
    l.take (min l.length n) = l.take n := by
  rcases le_total l.length n with h | h
  · rw [min_eq_left h, List.take_length, List.take_of_length_le h]
  · rw [min_eq_right h]

theorem JS.setProp_obj_isUndef (ps : List (Str × JS)) (k : Str) (v : JS) :
    ((JS.obj ps).setProp k v).isUndef = false := by
  simp [JS.setProp, JS.isUndef]

theorem if_isUndef_id (r : JS) (h : r.isUndef = false) :
    (if r.isUndef then JS.null else r) = r := by
  rw [h]
  simp

/-- C8: collection read shape.  For a read without `id`, with the store
returning the row list `rows` for the `pageSize + 1`-row request: the
result's `data` array lists the ids of the first `min(|rows|, pageSize)`
rows, `isLastPage` is present (with value `true`) iff fewer than
`pageSize + 1` rows came back, `count` is present iff `query.getCount` is
truthy (and then carries the parallel count result), and the page size
defaults to the configured `defaultPageSize`, itself defaulting to `10`. -/
theorem c8_collection_read_shape
    (q : RQuery) (rows : List JS) (count : JS) (defaultPageSize : Option Int)
    (hid : q.id.truthy = false)
    (hids : ∀ r ∈ rows, (r.getProp (strL "id")).truthy = true) :
    (shapeReadResult q (JS.arr rows) count (readPageSize q defaultPageSize)).getProp
        (strL "data") =
      JS.arr ((rows.take (readPageSize q defaultPageSize).toNat).map
        (fun r => r.getProp (strL "id"))) ∧
    ((shapeReadResult q (JS.arr rows) count (readPageSize q defaultPageSize)).hasProp
        (strL "isLastPage") = true ↔
      (rows.length : Int) < readPageSize q defaultPageSize + 1) ∧
    ((rows.length : Int) < readPageSize q defaultPageSize + 1 →
      (shapeReadResult q (JS.arr rows) count (readPageSize q defaultPageSize)).getProp
        (strL "isLastPage") = JS.bool true) ∧
    (shapeReadResult q (JS.arr rows) count (readPageSize q defaultPageSize)).hasProp
        (strL "count") = q.getCount.truthy ∧
    (q.getCount.truthy = true →
      (shapeReadResult q (JS.arr rows) count (readPageSize q defaultPageSize)).getProp
        (strL "count") = count) ∧
    (q.pageSize = JS.undef → defaultPageSize = none →
      readPageSize q defaultPageSize = 10) := by
  have hdoc : (rows.take (min rows.length (readPageSize q defaultPageSize).toNat)).map
      rowIdOrNull =
      (rows.take (readPageSize q defaultPageSize).toNat).map
        (fun r => r.getProp (strL "id")) := by
    rw [take_min_length]
    apply List.map_congr_left
    intro r hr
    have ht := hids r (List.mem_of_mem_take hr)
    simp [rowIdOrNull, ht]
  have ne1 : ¬ (strL "data" = strL "count") := by decide
  have ne2 : ¬ (strL "data" = strL "isLastPage") := by decide
  have ne3 : ¬ (strL "count" = strL "isLastPage") := by decide
  have b1 : (strL "data" == strL "data") = true := by decide
  have b3 : (strL "data" == strL "isLastPage") = false := by decide
  have b4 : (strL "count" == strL "data") = false := by decide
  have b5 : (strL "count" == strL "count") = true := by decide
  have b7 : (strL "isLastPage" == strL "data") = false := by decide
  have b8 : (strL "isLastPage" == strL "count") = false := by decide
  have b9 : (strL "isLastPage" == strL "isLastPage") = true := by decide
  have hdefault : q.pageSize = JS.undef → defaultPageSize = none →
      readPageSize q defaultPageSize = 10 := by
    intro h1 h2
    simp [readPageSize, normDefaultPageSize, h1, h2]
  have hshape : shapeReadResult q (JS.arr rows) count (readPageSize q defaultPageSize) =
      (if (rows.length : Int) < readPageSize q defaultPageSize + 1 then
        (if q.getCount.truthy then
          JS.obj [(strL "data", JS.arr ((rows.take
              (readPageSize q defaultPageSize).toNat).map
            (fun r => r.getProp (strL "id")))), (strL "count", count)]
        else
          JS.obj [(strL "data", JS.arr ((rows.take
              (readPageSize q defaultPageSize).toNat).map
            (fun r => r.getProp (strL "id"))))]).setProp (strL "isLastPage")
          (JS.bool true)
       else
        (if q.getCount.truthy then
          JS.obj [(strL "data", JS.arr ((rows.take
              (readPageSize q defaultPageSize).toNat).map
            (fun r => r.getProp (strL "id")))), (strL "count", count)]
        else
          JS.obj [(strL "data", JS.arr ((rows.take
              (readPageSize q defaultPageSize).toNat).map
            (fun r => r.getProp (strL "id"))))])) := by
    unfold shapeReadResult
    rw [hid]
    simp only [Bool.false_eq_true, if_false]
    rw [hdoc]
    by_cases hgc : q.getCount.truthy
    · by_cases hlt : (rows.length : Int) < readPageSize q defaultPageSize + 1
      · simp [hgc, hlt, JS.setProp, updAssoc, ne1, ne2, ne3, JS.isUndef]
      · simp [hgc, hlt, JS.setProp, updAssoc, ne1, ne2, ne3, JS.isUndef]
    · by_cases hlt : (rows.length : Int) < readPageSize q defaultPageSize + 1
      · simp [hgc, hlt, JS.setProp, updAssoc, ne1, ne2, ne3, JS.isUndef]
      · simp [hgc, hlt, JS.setProp, updAssoc, ne1, ne2, ne3, JS.isUndef]
  rw [hshape]
  by_cases hgc : q.getCount.truthy
  · rw [if_pos hgc]
    by_cases hlt : (rows.length : Int) < readPageSize q defaultPageSize + 1
    · rw [if_pos hlt]
      refine ⟨rfl, ?_, fun h2 => rfl, ?_, fun h2 => rfl, hdefault⟩
      · show (true = true) ↔ _
        simp [hlt]
      · show true = q.getCount.truthy
        exact hgc.symm
    · rw [if_neg hlt]
      refine ⟨rfl, ?_, fun h2 => absurd h2 hlt, ?_, fun h2 => rfl, hdefault⟩
      · show (false = true) ↔ _
        simp [hlt]
      · show true = q.getCount.truthy
        exact hgc.symm
  · rw [if_neg hgc]
    simp only [Bool.not_eq_true] at hgc
    by_cases hlt : (rows.length : Int) < readPageSize q defaultPageSize + 1
    · rw [if_pos hlt]
      refine ⟨rfl, ?_, fun h2 => rfl, ?_, fun h2 => ?_, hdefault⟩
      · show (true = true) ↔ _
        simp [hlt]
      · show false = q.getCount.truthy
        exact hgc.symm
      · rw [h2] at hgc
        exact absurd hgc (by decide)
    · rw [if_neg hlt]
      refine ⟨rfl, ?_, fun h2 => absurd h2 hlt, ?_, fun h2 => ?_, hdefault⟩
      · show (false = true) ↔ _
        simp [hlt]
      · show false = q.getCount.truthy
        exact hgc.symm
      · rw [h2] at hgc
        exact absurd hgc (by decide)

/-- C8 witness: `getCount` read of a two-row collection with the default
page size (no configured `defaultPageSize`, so 10). -/
theorem c8_collection_read_shape_witness :
    (shapeReadResult ⟨JS.undef, JS.undef, JS.bool true, JS.undef⟩
        (JS.arr [JS.obj [(strL "id", JS.str (strL "a"))],
                 JS.obj [(strL "id", JS.str (strL "b"))]])
        (JS.num 2)
        (readPageSize ⟨JS.undef, JS.undef, JS.bool true, JS.undef⟩ none)).getProp
      (strL "data") =
    JS.arr ((([JS.obj [(strL "id", JS.str (strL "a"))],
               JS.obj [(strL "id", JS.str (strL "b"))]].take
        (readPageSize ⟨JS.undef, JS.undef, JS.bool true, JS.undef⟩ none).toNat).map
      (fun r => r.getProp (strL "id")))) ∧
    readPageSize ⟨JS.undef, JS.undef, JS.bool true, JS.undef⟩ none = 10 :=
  ⟨(c8_collection_read_shape ⟨JS.undef, JS.undef, JS.bool true, JS.undef⟩
      [JS.obj [(strL "id", JS.str (strL "a"))], JS.obj [(strL "id", JS.str (strL "b"))]]
      (JS.num 2) none rfl
      (by
        rw [List.forall_mem_cons, List.forall_mem_cons]
        exact ⟨rfl, rfl, fun r hr => absurd hr (List.not_mem_nil r)⟩)).1,
   (c8_collection_read_shape ⟨JS.undef, JS.undef, JS.bool true, JS.undef⟩
      [JS.obj [(strL "id", JS.str (strL "a"))], JS.obj [(strL "id", JS.str (strL "b"))]]
      (JS.num 2) none rfl
      (by
        rw [List.forall_mem_cons, List.forall_mem_cons]
        exact ⟨rfl, rfl, fun r hr => absurd hr (List.not_mem_nil r)⟩)).2.2.2.2.2 rfl rfl⟩

/-- C10: a read never yields `undefined`.  The `loadedHandler` normalizes a
final `undefined` to `null` before invoking the callback, so the delivered
value is never `undefined` for any query; in particular, an `id`+`field`
read of a document that lacks the field (or of a `null`/`undefined`
document) delivers `null`. -/
theorem c10_read_never_undefined (q : RQuery) (data count : JS) (ps : Int) :
    shapeReadResult q data count ps ≠ JS.undef ∧
    (∀ f, q.id.truthy = true → q.field = JS.str f → f ≠ [] →
      (data.isLooseNull = true ∨ data.getProp f = JS.undef) →
      shapeReadResult q data count ps = JS.null) := by
  constructor
  · have hnorm : ∀ r : JS, (if r.isUndef then JS.null else r) ≠ JS.undef := by
      intro r
      cases r <;> simp [JS.isUndef]
    exact hnorm _
  · intro f hid hf hne hdata
    have htruthy : (JS.str f).truthy = true := by
      simp [JS.truthy, hne]
    by_cases hln : data.isLooseNull
    · unfold shapeReadResult
      rw [if_pos hid, hf, if_pos htruthy, if_pos hln]
      rfl
    · rcases hdata with h | h
      · exact absurd h hln
      · unfold shapeReadResult
        rw [if_pos hid, hf, if_pos htruthy, if_neg hln]
        rw [show (JS.str f).coerceStr = f from rfl, h]
        rfl

/-- C10 witness: reading field `name` of a document that lacks it delivers
`null`, never `undefined`. -/
theorem c10_read_never_undefined_witness :
    shapeReadResult ⟨JS.str (strL "p1"), JS.str (strL "name"), JS.undef, JS.undef⟩
      (JS.obj [(strL "id", JS.str (strL "p1"))]) JS.undef 10 ≠ JS.undef ∧
    shapeReadResult ⟨JS.str (strL "p1"), JS.str (strL "name"), JS.undef, JS.undef⟩
      (JS.obj [(strL "id", JS.str (strL "p1"))]) JS.undef 10 = JS.null :=
  ⟨(c10_read_never_undefined ⟨JS.str (strL "p1"), JS.str (strL "name"), JS.undef,
      JS.undef⟩ (JS.obj [(strL "id", JS.str (strL "p1"))]) JS.undef 10).1,
   (c10_read_never_undefined ⟨JS.str (strL "p1"), JS.str (strL "name"), JS.undef,
      JS.undef⟩ (JS.obj [(strL "id", JS.str (strL "p1"))]) JS.undef 10).2
     (strL "name") rfl rfl (by decide) (Or.inr rfl)⟩
